import Mathlib

/-!
Verification development for the opendrop repository.

Part 1 embeds `opendrop/iftcalc/younglaplace/de.py`: the two Young--Laplace
derivative functions `ylderiv` (6-component sensitivity form) and `dataderiv`
(5-component volume/surface form).  Python's `math.sin`, `math.cos`, `math.pi`
are embedded as the real functions `Real.sin`, `Real.cos` and the constant
`Real.pi`; the state tuples are embedded as tuples of reals and the returned
Python lists as `List ℝ`.

Part 2 embeds the `StackModel` class of `opendrop/component/stack.py` as a
functional state: the ordered dict `_key_to_child` becomes an association
list (Python dicts preserve insertion order) and `_visible_child_key` an
`Option K`.  Each mutating method becomes a state transformer returning the
new state together with an optional `ValueError` message; the Python methods
raise before they mutate, so an error leaves the state unchanged.
-/

open Real

namespace OpenDrop.YoungLaplace

/-- Embedding of `ylderiv(x_vec, t, bond_number)` from
`opendrop/iftcalc/younglaplace/de.py`: the 6-component Young--Laplace system
with Bond-number sensitivity propagation. -/
noncomputable def ylderiv (x_vec : ℝ × ℝ × ℝ × ℝ × ℝ × ℝ) (t : ℝ)
    (bond_number : ℝ) : List ℝ :=
  let (x, y, phi, x_Bond, y_Bond, phi_Bond) := x_vec
  let x_s := Real.cos phi
  let y_s := Real.sin phi
  let phi_s := 2 - bond_number * y - y_s / x
  let x_Bond_s := - y_s * phi_Bond
  let y_Bond_s := x_s * phi_Bond
  let phi_Bond_s := y_s * x_Bond / (x ^ 2) - x_s * phi_Bond / x - y
    - bond_number * y_Bond
  [x_s, y_s, phi_s, x_Bond_s, y_Bond_s, phi_Bond_s]

/-- Embedding of `dataderiv(x_vec, t, bond_number)` from
`opendrop/iftcalc/younglaplace/de.py`: the 5-component Young--Laplace system
tracking cumulative volume and surface area. -/
noncomputable def dataderiv (x_vec : ℝ × ℝ × ℝ × ℝ × ℝ) (t : ℝ)
    (bond_number : ℝ) : List ℝ :=
  let (x, y, phi, _vol, _sur) := x_vec
  let x_s := Real.cos phi
  let y_s := Real.sin phi
  let phi_s := 2 - bond_number * y - Real.sin phi / x
  let vol_s := Real.pi * x ^ 2 * y_s
  let sur_s := 2 * Real.pi * x
  [x_s, y_s, phi_s, vol_s, sur_s]

/-- Division guarded against a zero divisor, used to build total variants of
the derivative functions in which every division is checked. -/
noncomputable def checkedDiv (a b : ℝ) : Option ℝ :=
  if b = 0 then none else some (a / b)

/-- Variant of `ylderiv` in which each of the three divisions of the source
(`y_s/x`, `y_s * x_Bond / (x**2)`, `x_s * phi_Bond / x`) is guarded: the
result is `none` exactly when some divisor is zero. -/
noncomputable def ylderivGuard (x_vec : ℝ × ℝ × ℝ × ℝ × ℝ × ℝ) (t : ℝ)
    (bond_number : ℝ) : Option (List ℝ) :=
  let (x, y, phi, x_Bond, y_Bond, phi_Bond) := x_vec
  let x_s := Real.cos phi
  let y_s := Real.sin phi
  match checkedDiv y_s x, checkedDiv (y_s * x_Bond) (x ^ 2),
      checkedDiv (x_s * phi_Bond) x with
  | some d1, some d2, some d3 =>
      some [x_s, y_s, 2 - bond_number * y - d1, - y_s * phi_Bond,
        x_s * phi_Bond, d2 - d3 - y - bond_number * y_Bond]
  | _, _, _ => none

/-- Variant of `dataderiv` in which the single division of the source
(`sin(phi)/x`) is guarded: the result is `none` exactly when `x = 0`. -/
noncomputable def dataderivGuard (x_vec : ℝ × ℝ × ℝ × ℝ × ℝ) (t : ℝ)
    (bond_number : ℝ) : Option (List ℝ) :=
  let (x, y, phi, _vol, _sur) := x_vec
  let x_s := Real.cos phi
  let y_s := Real.sin phi
  match checkedDiv (Real.sin phi) x with
  | some d1 =>
      some [x_s, y_s, 2 - bond_number * y - d1, Real.pi * x ^ 2 * y_s,
        2 * Real.pi * x]
  | none => none

end OpenDrop.YoungLaplace

namespace OpenDrop.YoungLaplace

/-- C1: for every state with nonzero `x`, every arc length `t` and every
Bond number, the first three components of `ylderiv` are
`cos phi`, `sin phi`, `2 - bond_number * y - sin phi / x`, and the same holds
for `dataderiv`. -/
theorem ylderiv_dataderiv_first_three (x y phi a b c d e t B : ℝ)
    (hx : x ≠ 0) :
    (ylderiv (x, y, phi, a, b, c) t B).take 3 =
      [Real.cos phi, Real.sin phi, 2 - B * y - Real.sin phi / x] ∧
    (dataderiv (x, y, phi, d, e) t B).take 3 =
      [Real.cos phi, Real.sin phi, 2 - B * y - Real.sin phi / x] := by
  constructor <;> rfl

/-- Witness for C1 at the state `(1, 0, 0, 0, 0, 0)`, `t = 0`, `B = 0`. -/
theorem ylderiv_dataderiv_first_three_witness :
    (1 : ℝ) ≠ 0 ∧
    ((ylderiv (1, 0, 0, 0, 0, 0) 0 0).take 3 =
      [Real.cos 0, Real.sin 0, 2 - 0 * 0 - Real.sin 0 / 1] ∧
    (dataderiv (1, 0, 0, 0, 0) 0 0).take 3 =
      [Real.cos 0, Real.sin 0, 2 - 0 * 0 - Real.sin 0 / 1]) :=
  ⟨one_ne_zero,
    ylderiv_dataderiv_first_three 1 0 0 0 0 0 0 0 0 0 one_ne_zero⟩

/-- C3: for every 5-component state with nonzero `x` and every Bond number,
`dataderiv` returns a 5-component list whose fourth component (volume rate)
is `pi * x^2 * sin phi` and whose fifth component (surface-area rate) is
`2 * pi * x`. -/
theorem dataderiv_volume_surface (x y phi vol sur t B : ℝ) (hx : x ≠ 0) :
    (dataderiv (x, y, phi, vol, sur) t B).length = 5 ∧
    (dataderiv (x, y, phi, vol, sur) t B).drop 3 =
      [Real.pi * x ^ 2 * Real.sin phi, 2 * Real.pi * x] := by
  constructor <;> rfl

/-- Witness for C3 at the state `(1, 0, 0, 0, 0)`, `t = 0`, `B = 0`. -/
theorem dataderiv_volume_surface_witness :
    (1 : ℝ) ≠ 0 ∧
    ((dataderiv (1, 0, 0, 0, 0) 0 0).length = 5 ∧
    (dataderiv (1, 0, 0, 0, 0) 0 0).drop 3 =
      [Real.pi * 1 ^ 2 * Real.sin 0, 2 * Real.pi * 1]) :=
  ⟨one_ne_zero, dataderiv_volume_surface 1 0 0 0 0 0 0 one_ne_zero⟩

/-- C6: the two derivative functions agree on their shared components: for
every `x, y, phi` with `x` nonzero, every Bond number, every `t`, and
arbitrary remaining state components, the first three components of
`ylderiv` equal the first three components of `dataderiv`. -/
theorem ylderiv_dataderiv_agree (x y phi a b c d e t B : ℝ) (hx : x ≠ 0) :
    (ylderiv (x, y, phi, a, b, c) t B).take 3 =
    (dataderiv (x, y, phi, d, e) t B).take 3 := by
  rfl

/-- Witness for C6 at the state components `(1, 0, 0)`. -/
theorem ylderiv_dataderiv_agree_witness :
    (1 : ℝ) ≠ 0 ∧
    (ylderiv (1, 0, 0, 2, 3, 4) 0 0).take 3 =
      (dataderiv (1, 0, 0, 5, 6) 0 0).take 3 :=
  ⟨one_ne_zero, ylderiv_dataderiv_agree 1 0 0 2 3 4 5 6 0 0 one_ne_zero⟩

/-- C7: the derivative functions are deterministic pure functions: two
evaluations at equal state, equal `t` and equal Bond number return equal
lists (in this embedding they are Lean functions, so they touch no external
state). -/
theorem ylderiv_dataderiv_deterministic
    (v v' : ℝ × ℝ × ℝ × ℝ × ℝ × ℝ) (w w' : ℝ × ℝ × ℝ × ℝ × ℝ)
    (t t' B B' : ℝ) (hv : v = v') (hw : w = w') (ht : t = t')
    (hB : B = B') :
    ylderiv v t B = ylderiv v' t' B' ∧ dataderiv w t B = dataderiv w' t' B' := by
  subst hv; subst hw; subst ht; subst hB
  exact ⟨rfl, rfl⟩

/-- Witness for C7 at concrete equal inputs. -/
theorem ylderiv_dataderiv_deterministic_witness :
    ylderiv (1, 2, 3, 4, 5, 6) 7 8 = ylderiv (1, 2, 3, 4, 5, 6) 7 8 ∧
    dataderiv (1, 2, 3, 4, 5) 7 8 = dataderiv (1, 2, 3, 4, 5) 7 8 :=
  ylderiv_dataderiv_deterministic (1, 2, 3, 4, 5, 6) (1, 2, 3, 4, 5, 6)
    (1, 2, 3, 4, 5) (1, 2, 3, 4, 5) 7 7 8 8 rfl rfl rfl rfl

/-- C2: for every 6-component state with nonzero `x`, the last three
components of `ylderiv` are the Bond-number sensitivity propagation:
they equal `-sin phi * phi_Bond`, `cos phi * phi_Bond` and
`sin phi * x_Bond / x^2 - cos phi * phi_Bond / x - y - B * y_Bond`; and the
third of these is genuinely the derivative with respect to the Bond number
of the base equation `2 - b * y(b) - sin (phi(b)) / x(b)` along any
differentiable curve `(X, Y, Phi)` through `(x, y, phi)` with derivatives
`(x_Bond, y_Bond, phi_Bond)` at `B`. -/
theorem ylderiv_bond_sensitivity (x y phi xB yB phiB t B : ℝ) (hx : x ≠ 0) :
    (ylderiv (x, y, phi, xB, yB, phiB) t B).drop 3 =
      [- Real.sin phi * phiB, Real.cos phi * phiB,
        Real.sin phi * xB / x ^ 2 - Real.cos phi * phiB / x - y - B * yB] ∧
    (∀ X Y Phi : ℝ → ℝ, HasDerivAt X xB B → HasDerivAt Y yB B →
      HasDerivAt Phi phiB B → X B = x → Y B = y → Phi B = phi →
      HasDerivAt (fun b => 2 - b * Y b - Real.sin (Phi b) / X b)
        (Real.sin phi * xB / x ^ 2 - Real.cos phi * phiB / x - y - B * yB)
        B) := by
  constructor
  · rfl
  · intro X Y Phi hX hY hPhi hXB hYB hPhiB
    subst hXB; subst hYB; subst hPhiB
    have h1 : HasDerivAt (fun b : ℝ => b * Y b) (1 * Y B + B * yB) B :=
      (hasDerivAt_id B).mul hY
    have h2 : HasDerivAt (fun b => Real.sin (Phi b))
        (Real.cos (Phi B) * phiB) B := hPhi.sin
    have h3 : HasDerivAt (fun b => Real.sin (Phi b) / X b)
        ((Real.cos (Phi B) * phiB * X B - Real.sin (Phi B) * xB) / X B ^ 2)
        B := h2.div hX hx
    have h4 := ((hasDerivAt_const B (2 : ℝ)).sub h1).sub h3
    convert h4 using 1
    field_simp
    ring

/-- Witness for C2 at the state `(1, 0, 0, 0, 0, 0)`, `t = 0`, `B = 0`. -/
theorem ylderiv_bond_sensitivity_witness :
    (1 : ℝ) ≠ 0 ∧
    (ylderiv (1, 0, 0, 0, 0, 0) 0 0).drop 3 =
      [- Real.sin 0 * 0, Real.cos 0 * 0,
        Real.sin 0 * 0 / 1 ^ 2 - Real.cos 0 * 0 / 1 - 0 - 0 * 0] :=
  ⟨one_ne_zero, (ylderiv_bond_sensitivity 1 0 0 0 0 0 0 0 one_ne_zero).1⟩

/-- C4: with Bond number 0, the unit circle `x = sin s`, `y = 1 - cos s`,
`phi = s` solves the system exactly: wherever `sin s` is nonzero, the first
three components of `dataderiv` (and of `ylderiv`) at that state are
`cos s`, `sin s`, `1`, which is exactly the arc-length derivative of the
circle parametrization. -/
theorem circle_solves_bond_zero (s t vol sur a b c : ℝ)
    (hs : Real.sin s ≠ 0) :
    (dataderiv (Real.sin s, 1 - Real.cos s, s, vol, sur) t 0).take 3 =
      [Real.cos s, Real.sin s, 1] ∧
    (ylderiv (Real.sin s, 1 - Real.cos s, s, a, b, c) t 0).take 3 =
      [Real.cos s, Real.sin s, 1] ∧
    HasDerivAt Real.sin (Real.cos s) s ∧
    HasDerivAt (fun u => 1 - Real.cos u) (Real.sin s) s ∧
    HasDerivAt (fun u : ℝ => u) 1 s := by
  have hone : (2 : ℝ) - 0 * (1 - Real.cos s) - Real.sin s / Real.sin s
      = 1 := by
    rw [div_self hs]; ring
  refine ⟨?_, ?_, Real.hasDerivAt_sin s, ?_, hasDerivAt_id s⟩
  · show [Real.cos s, Real.sin s,
      2 - 0 * (1 - Real.cos s) - Real.sin s / Real.sin s] =
      [Real.cos s, Real.sin s, 1]
    rw [hone]
  · show [Real.cos s, Real.sin s,
      2 - 0 * (1 - Real.cos s) - Real.sin s / Real.sin s] =
      [Real.cos s, Real.sin s, 1]
    rw [hone]
  · have h := (hasDerivAt_const s (1 : ℝ)).sub (Real.hasDerivAt_cos s)
    simpa using h

/-- Witness for C4 at `s = pi / 2`, where `sin s = 1`. -/
theorem circle_solves_bond_zero_witness :
    Real.sin (Real.pi / 2) ≠ 0 ∧
    (dataderiv (Real.sin (Real.pi / 2), 1 - Real.cos (Real.pi / 2),
        Real.pi / 2, 0, 0) 0 0).take 3 =
      [Real.cos (Real.pi / 2), Real.sin (Real.pi / 2), 1] := by
  have hs : Real.sin (Real.pi / 2) ≠ 0 := by
    rw [Real.sin_pi_div_two]; exact one_ne_zero
  exact ⟨hs, (circle_solves_bond_zero (Real.pi / 2) 0 0 0 0 0 0 hs).1⟩

/-- C5: in the total embedding with guarded division, every division of both
derivative bodies has a nonzero divisor whenever `x` is nonzero, so the error
branch is unreachable and the guarded functions return exactly the unguarded
results; at `x = 0` both functions are genuinely singular and the guarded
variants return `none`. -/
theorem deriv_guard_total (x y phi xB yB phiB vol sur t B : ℝ) :
    (x ≠ 0 →
      ylderivGuard (x, y, phi, xB, yB, phiB) t B =
        some (ylderiv (x, y, phi, xB, yB, phiB) t B) ∧
      dataderivGuard (x, y, phi, vol, sur) t B =
        some (dataderiv (x, y, phi, vol, sur) t B)) ∧
    (x = 0 →
      ylderivGuard (x, y, phi, xB, yB, phiB) t B = none ∧
      dataderivGuard (x, y, phi, vol, sur) t B = none) := by
  constructor
  · intro hx
    have hx2 : x ^ 2 ≠ 0 := pow_ne_zero 2 hx
    constructor
    · simp only [ylderivGuard, ylderiv, checkedDiv, if_neg hx, if_neg hx2]
    · simp only [dataderivGuard, dataderiv, checkedDiv, if_neg hx]
  · intro hx
    subst hx
    constructor
    · simp [ylderivGuard, checkedDiv]
    · simp [dataderivGuard, checkedDiv]

/-- Witness for C5 at `x = 1` (nonzero branch) together with the singular
branch at `x = 0`, both at the zero state otherwise. -/
theorem deriv_guard_total_witness :
    ((1 : ℝ) ≠ 0 →
      ylderivGuard (1, 0, 0, 0, 0, 0) 0 0 =
        some (ylderiv (1, 0, 0, 0, 0, 0) 0 0) ∧
      dataderivGuard (1, 0, 0, 0, 0) 0 0 =
        some (dataderiv (1, 0, 0, 0, 0) 0 0)) ∧
    ((0 : ℝ) = 0 →
      ylderivGuard (0, 0, 0, 0, 0, 0) 0 0 = none ∧
      dataderivGuard (0, 0, 0, 0, 0) 0 0 = none) :=
  ⟨fun h => (deriv_guard_total 1 0 0 0 0 0 0 0 0 0).1 h,
    fun h => (deriv_guard_total 0 0 0 0 0 0 0 0 0 0).2 h⟩

/-- C8: the system is autonomous: both derivative functions ignore the
arc-length argument `t`, so any two values of `t` give identical results. -/
theorem ylderiv_dataderiv_autonomous
    (v : ℝ × ℝ × ℝ × ℝ × ℝ × ℝ) (w : ℝ × ℝ × ℝ × ℝ × ℝ) (t1 t2 B : ℝ) :
    ylderiv v t1 B = ylderiv v t2 B ∧ dataderiv w t1 B = dataderiv w t2 B :=
  ⟨rfl, rfl⟩

end OpenDrop.YoungLaplace

namespace OpenDrop.Stack

/-- Embedding of the observable state of `StackModel` from
`opendrop/component/stack.py`: `_visible_child_key` and the insertion-ordered
dict `_key_to_child`, the latter as an association list. -/
structure StackModel (K C : Type) where
  visible_child_key : Option K
  key_to_child : List (K × C)

/-- Embedding of `StackModel.__init__`: no visible child, empty mapping. -/
def StackModel.init (K C : Type) : StackModel K C := ⟨none, []⟩

/-- The keys of the mapping, in insertion order. -/
def StackModel.keys {K C : Type} (m : StackModel K C) : List K :=
  m.key_to_child.map Prod.fst

/-- The children of the mapping, in insertion order
(`self._key_to_child.values()`). -/
def StackModel.children {K C : Type} (m : StackModel K C) : List C :=
  m.key_to_child.map Prod.snd

/-- Embedding of `StackModel.add_child`.  The Python method raises
`ValueError` when the key is `None`, when the key already identifies a child,
or when the child already belongs to the stack, and only then mutates the
dict; here each raise becomes an unchanged state paired with the error
message. -/
def StackModel.add_child {K C : Type} [DecidableEq K] [DecidableEq C]
    (m : StackModel K C) (key : Option K) (child : C) :
    StackModel K C × Option String :=
  match key with
  | none => (m, some "Identifying key for child cannot be None")
  | some k =>
    if k ∈ m.keys then
      (m, some "Child is already identified by this key")
    else if child ∈ m.children then
      (m, some "Child already belongs to this stack")
    else
      ({ m with key_to_child := m.key_to_child ++ [(k, child)] }, none)

/-- Embedding of `StackModel.remove_child`: find the first entry whose child
is the argument; if none exists raise `ValueError`, otherwise reset
`visible_child_key` to `None` when it equals the found key and delete the
entry. -/
def StackModel.remove_child {K C : Type} [DecidableEq K] [DecidableEq C]
    (m : StackModel K C) (child : C) : StackModel K C × Option String :=
  match m.key_to_child.find? (fun p => decide (p.2 = child)) with
  | none => (m, some "Child does not belong to this stack")
  | some p =>
    ({ visible_child_key :=
         (if m.visible_child_key = some p.1 then none
          else m.visible_child_key),
       key_to_child :=
         m.key_to_child.filter (fun q => decide (q.1 ≠ p.1)) }, none)

/-- Embedding of `StackModel._set_visible_child_key` (reached through the
`visible_child_key` property setter): raise for a non-`None` key not in the
mapping, otherwise assign the key. -/
def StackModel.set_visible_child_key {K C : Type} [DecidableEq K]
    (m : StackModel K C) (new_key : Option K) :
    StackModel K C × Option String :=
  match new_key with
  | none => ({ m with visible_child_key := none }, none)
  | some k =>
    if k ∈ m.keys then ({ m with visible_child_key := some k }, none)
    else (m, some "No child identified by the key")

/-- Helper for `clear`: remove the listed children one by one, stopping at
the first error (the Python loop re-raises out of `clear`). -/
def StackModel.removeAll {K C : Type} [DecidableEq K] [DecidableEq C]
    (m : StackModel K C) : List C → StackModel K C × Option String
  | [] => (m, none)
  | c :: cs =>
    match m.remove_child c with
    | (m', none) => m'.removeAll cs
    | (m', some e) => (m', some e)

/-- Embedding of `StackModel.clear`: remove every child of a snapshot of the
current children list. -/
def StackModel.clear {K C : Type} [DecidableEq K] [DecidableEq C]
    (m : StackModel K C) : StackModel K C × Option String :=
  m.removeAll m.children

/-- The invariant of C9: the visible child key, when not `None`, is a key of
the mapping. -/
def StackModel.Inv {K C : Type} (m : StackModel K C) : Prop :=
  ∀ k, m.visible_child_key = some k → k ∈ m.keys

lemma StackModel.inv_init (K C : Type) : (StackModel.init K C).Inv := by
  intro k hk
  simp [StackModel.init] at hk

lemma StackModel.inv_add_child {K C : Type} [DecidableEq K] [DecidableEq C]
    (m : StackModel K C) (key : Option K) (child : C) (h : m.Inv) :
    ((m.add_child key child).1).Inv := by
  cases key with
  | none => exact h
  | some k =>
    simp only [StackModel.add_child]
    split
    · exact h
    · split
      · exact h
      · intro k' hk'
        have hk2 := h k' hk'
        simp only [StackModel.keys, List.map_append, List.mem_append] at hk2 ⊢
        exact Or.inl hk2

lemma StackModel.inv_remove_child {K C : Type} [DecidableEq K]
    [DecidableEq C] (m : StackModel K C) (child : C) (h : m.Inv) :
    ((m.remove_child child).1).Inv := by
  simp only [StackModel.remove_child]
  split
  · exact h
  · rename_i p heq
    intro k' hk'
    simp only at hk'
    by_cases hv : m.visible_child_key = some p.1
    · rw [if_pos hv] at hk'
      exact absurd hk' (by simp)
    · rw [if_neg hv] at hk'
      have hk2 := h k' hk'
      have hne : k' ≠ p.1 := by
        intro he
        exact hv (by rw [← he]; exact hk')
      simp only [StackModel.keys, List.mem_map] at hk2 ⊢
      obtain ⟨q, hq, hq1⟩ := hk2
      refine ⟨q, List.mem_filter.mpr ⟨hq, ?_⟩, hq1⟩
      simp [hq1, hne]

lemma StackModel.inv_removeAll {K C : Type} [DecidableEq K] [DecidableEq C] :
    ∀ (cs : List C) (m : StackModel K C), m.Inv → ((m.removeAll cs).1).Inv
  | [], _, h => h
  | c :: cs, m, h => by
    simp only [StackModel.removeAll]
    split
    case _ m' heq =>
      have hm' : m'.Inv := by
        have h2 := StackModel.inv_remove_child m c h
        rw [heq] at h2
        exact h2
      exact StackModel.inv_removeAll cs m' hm'
    case _ m' e heq =>
      have h2 := StackModel.inv_remove_child m c h
      rw [heq] at h2
      exact h2

lemma StackModel.inv_set_visible_child_key {K C : Type} [DecidableEq K]
    (m : StackModel K C) (key : Option K) (h : m.Inv) :
    ((m.set_visible_child_key key).1).Inv := by
  cases key with
  | none =>
    intro k hk
    simp [StackModel.set_visible_child_key] at hk
  | some k =>
    simp only [StackModel.set_visible_child_key]
    split
    case isTrue hmem =>
      intro k' hk'
      simp only at hk'
      obtain rfl : k = k' := by simpa using hk'
      exact hmem
    case isFalse hmem => exact h

/-- C9: `StackModel` keeps `visible_child_key` either `None` or a key of the
mapping: the invariant holds after construction and is preserved by
`add_child`, `remove_child`, `clear` and assignment to `visible_child_key`;
assigning a non-`None` key not in the mapping raises `ValueError`, and
`remove_child` resets `visible_child_key` to `None` when the removed child
was the visible one. -/
theorem stack_model_visible_key_invariant {K C : Type}
    [DecidableEq K] [DecidableEq C] :
    (StackModel.init K C).Inv ∧
    (∀ (m : StackModel K C) (key : Option K) (child : C),
      m.Inv → ((m.add_child key child).1).Inv) ∧
    (∀ (m : StackModel K C) (child : C),
      m.Inv → ((m.remove_child child).1).Inv) ∧
    (∀ (m : StackModel K C), m.Inv → ((m.clear).1).Inv) ∧
    (∀ (m : StackModel K C) (key : Option K),
      m.Inv → ((m.set_visible_child_key key).1).Inv) ∧
    (∀ (m : StackModel K C) (k : K),
      k ∉ m.keys → ∃ e, (m.set_visible_child_key (some k)).2 = some e) ∧
    (∀ (m : StackModel K C) (child : C) (p : K × C),
      m.key_to_child.find? (fun q => decide (q.2 = child)) = some p →
      m.visible_child_key = some p.1 →
      ((m.remove_child child).1).visible_child_key = none) := by
  refine ⟨StackModel.inv_init K C, StackModel.inv_add_child,
    StackModel.inv_remove_child,
    fun m h => StackModel.inv_removeAll m.children m h,
    StackModel.inv_set_visible_child_key, ?_, ?_⟩
  · intro m k hk
    exact ⟨"No child identified by the key",
      by simp [StackModel.set_visible_child_key, hk]⟩
  · intro m child p hfind hvis
    simp [StackModel.remove_child, hfind, hvis]

/-- Witness for C9: the invariant after adding child `7` under key `1` to a
fresh model, with the construction invariant discharged concretely. -/
theorem stack_model_visible_key_invariant_witness :
    (((StackModel.init ℕ ℕ).add_child (some 1) 7).1).Inv :=
  (stack_model_visible_key_invariant.2.1) (StackModel.init ℕ ℕ) (some 1) 7
    (fun k hk => by simp [StackModel.init] at hk)

/-- C10: `add_child` errors exactly when the key is `None`, the key already
identifies a child, or the child is already in the mapping; on error the
state is unchanged, and on success the only change is that the new key maps
to the new child (appended to the mapping, visible key untouched). -/
theorem add_child_error_iff {K C : Type} [DecidableEq K] [DecidableEq C]
    (m : StackModel K C) (key : Option K) (child : C) :
    ((m.add_child key child).2.isSome = true ↔
      key = none ∨ (∃ k, key = some k ∧ k ∈ m.keys) ∨
        child ∈ m.children) ∧
    ((m.add_child key child).2.isSome = true →
      (m.add_child key child).1 = m) ∧
    ((m.add_child key child).2 = none →
      ∃ k, key = some k ∧
        (m.add_child key child).1.key_to_child =
          m.key_to_child ++ [(k, child)] ∧
        (m.add_child key child).1.visible_child_key =
          m.visible_child_key) := by
  cases key with
  | none =>
    refine ⟨?_, ?_, ?_⟩
    · simp [StackModel.add_child]
    · intro _; rfl
    · intro hnone; simp [StackModel.add_child] at hnone
  | some k =>
    by_cases h1 : k ∈ m.keys
    · refine ⟨?_, ?_, ?_⟩
      · simp [StackModel.add_child, h1]
      · intro _; simp [StackModel.add_child, h1]
      · intro hnone; simp [StackModel.add_child, h1] at hnone
    · by_cases h2 : child ∈ m.children
      · refine ⟨?_, ?_, ?_⟩
        · simp [StackModel.add_child, h1, h2]
        · intro _; simp [StackModel.add_child, h1, h2]
        · intro hnone; simp [StackModel.add_child, h1, h2] at hnone
      · refine ⟨?_, ?_, ?_⟩
        · simp [StackModel.add_child, h1, h2]
        · intro hs; simp [StackModel.add_child, h1, h2] at hs
        · intro _
          exact ⟨k, rfl, by simp [StackModel.add_child, h1, h2],
            by simp [StackModel.add_child, h1, h2]⟩

/-- Witness for C10: the success case of adding child `7` under key `1` to a
fresh model. -/
theorem add_child_error_iff_witness :
    ∃ k, (some 1 : Option ℕ) = some k ∧
      ((StackModel.init ℕ ℕ).add_child (some 1) (7 : ℕ)).1.key_to_child =
        (StackModel.init ℕ ℕ).key_to_child ++ [(k, 7)] ∧
      ((StackModel.init ℕ ℕ).add_child (some 1) (7 : ℕ)).1.visible_child_key
        = (StackModel.init ℕ ℕ).visible_child_key :=
  (add_child_error_iff (StackModel.init ℕ ℕ) (some 1) 7).2.2 (by decide)

end OpenDrop.Stack
